import Mathlib

/-!
# Formal model of hubploy's LocalImage core (src/hubploy/config.py)

Shallow embedding of the tag-resolution, cache-probing and build-decision
engine of `hubploy.config.LocalImage`.  External collaborators (the git
history oracle, the docker registry/daemon, the repo2docker build engine)
are modelled as explicit parameters carrying their observable behaviour;
the decision logic itself is translated line by line from
`src/hubploy/config.py`.
-/

namespace HubployModel

/-- Modelled from the spec: the `hubploy.gitutils` module is not part of the
available sources, so the HistoryOracle interface is taken from the spec:
`lastCommitTouching(path, offset) -> revisionId | none` (offset 0 = most
recent touching commit, offset i = i-th most recent) and
`wasTouchedInRange(path, range) -> bool`.  A missing revision is modelled as
the empty string, matching the Python falsiness test `if not self.tag:` in
`LocalImage.__init__`. -/
structure GitOracle where
  lastModifiedCommit : String → Nat → String
  pathTouched : String → String → Bool

/-- Outcome of `docker.images.get_registry_data(image_spec)`: either the
manifest data is returned (the docker client returns a `RegistryData`
object, never `None`, on success — so the source's `image_manifest is not
None` test is true in this case), or `docker.errors.ImageNotFound` is
raised, or some other `docker.errors.APIError` carrying an explanation
string is raised. -/
inductive RegistryQueryResult where
  | found (manifest : String)
  | imageNotFound
  | apiError (explanation : String)
deriving DecidableEq

/-- Outcome of `docker.images.pull(spec)`: success, a
`docker.errors.NotFound` miss, or any other error. -/
inductive PullResult where
  | success
  | notFound
  | error (msg : String)
deriving DecidableEq

/-- Errors the modelled operations can raise: `ValueError` usage errors from
`needs_building`, a re-raised `docker.errors.APIError` from
`exists_in_registry`, and a non-NotFound error escaping `docker.images.pull`
during the cache probe. -/
inductive HubployError where
  | usageError (msg : String)
  | apiError (explanation : String)
  | registryError (msg : String)
deriving DecidableEq

/-- Observable behaviour of the docker registry/daemon reached through the
shared docker client: manifest queries keyed by image spec, and pulls keyed
by image spec. -/
structure Registry where
  getRegistryData : String → RegistryQueryResult
  pull : String → PullResult

/-- The slice of `Repo2Docker` state that `LocalImage` sets: `subdir` (build
context), `output_image_spec`, the fixed build-identity parameters, and
`cache_from` (empty by default, set by `build` when a parent image is
found).  `r2d.initialize()` is a traitlets no-op for this model. -/
structure Repo2DockerState where
  subdir : String
  output_image_spec : String
  user_id : Nat
  user_name : String
  target_repo_dir : String
  cache_from : List String
deriving DecidableEq

/-- The arguments with which `r2d.build()` is invoked: the build context
directory, the output image spec, and the cache-source hints. -/
structure BuildInvocation where
  subdir : String
  output_image_spec : String
  cache_from : List String
deriving DecidableEq

/-- Class-level docker-client state backing the `LocalImage.docker`
property: `_docker` is the memoized client handle (`none` models the
attribute being absent, i.e. `not hasattr(cls, '_docker')`), and
`constructions` is a ghost counter of `docker.from_env()` calls; the k-th
construction yields the fresh handle `k`. -/
structure DockerClientState where
  _docker : Option Nat
  constructions : Nat
deriving DecidableEq

/-- Python truthiness of an optional string (`None` and `''` are falsy). -/
def optStrTruthy : Option String → Bool
  | none => false
  | some s => s ≠ ""

/-- The `LocalImage` record: fields assigned in `LocalImage.__init__`. -/
structure LocalImage where
  name : String
  tag : String
  path : String
  helm_substitution_path : String
  image_spec : String
  r2d : Repo2DockerState
deriving DecidableEq

/-- `LocalImage.__init__(name, path, helm_substitution_path)`: resolves the
tag as the most recent commit touching `path` (offset 0), substituting the
sentinel `latest` when the oracle reports none (empty string); derives
`image_spec = name:tag`; and configures the repo2docker object.
Construction is total: it never fails. -/
def LocalImage.init (git : GitOracle) (name path : String)
    (helm_substitution_path : String := "jupyterhub.singleuser.image") : LocalImage :=
  let tag0 := git.lastModifiedCommit path 0
  let tag := if tag0 = "" then "latest" else tag0
  let image_spec := name ++ ":" ++ tag
  { name := name
    tag := tag
    path := path
    helm_substitution_path := helm_substitution_path
    image_spec := image_spec
    r2d :=
      { subdir := path
        output_image_spec := image_spec
        user_id := 1000
        user_name := "jovyan"
        target_repo_dir := "/srv/repo"
        cache_from := [] } }

/-- The `docker` property: returns the shared client, creating and storing
it in class-level state on first access (`if not hasattr(self.__class__,
'_docker'): self.__class__._docker = docker.from_env()`).  The `LocalImage`
argument mirrors `self`; the state is shared across all instances. -/
def LocalImage.docker (_img : LocalImage) (s : DockerClientState) :
    Nat × DockerClientState :=
  match s._docker with
  | some c => (c, s)
  | none =>
      (s.constructions,
       { _docker := some s.constructions, constructions := s.constructions + 1 })

/-- `LocalImage.exists_in_registry`: queries the registry for the manifest
of `image_spec`; `ImageNotFound` yields `false`, an `APIError` whose
explanation starts with `'manifest unknown: '` yields `false`, any other
`APIError` is re-raised, and a resolved manifest yields `true` (the
returned `RegistryData` object is never `None`). -/
def LocalImage.exists_in_registry (img : LocalImage) (reg : Registry) :
    Except HubployError Bool :=
  match reg.getRegistryData img.image_spec with
  | .found _ => .ok true
  | .imageNotFound => .ok false
  | .apiError explanation =>
      if explanation.startsWith "manifest unknown: " then .ok false
      else .error (.apiError explanation)

/-- `LocalImage.get_possible_parent_tags(n=16)`: yields
`gitutils.last_modified_commit(self.path, n=i)` for `i in range(1, n)`,
i.e. for offsets 1 through n-1. -/
def LocalImage.get_possible_parent_tags (img : LocalImage) (git : GitOracle)
    (n : Nat := 16) : List String :=
  (List.range' 1 (n - 1)).map (fun i => git.lastModifiedCommit img.path i)

/-- The pull loop inside `LocalImage.fetch_parent_image`: for each candidate
tag, build `name:tag` and try to pull it; return the first spec that pulls,
absorb `docker.errors.NotFound` and continue, propagate any other error;
return `none` when the candidates are exhausted. -/
def fetchLoop (reg : Registry) (name : String) :
    List String → Except HubployError (Option String)
  | [] => .ok none
  | t :: rest =>
      let parent_image_spec := name ++ ":" ++ t
      match reg.pull parent_image_spec with
      | .success => .ok (some parent_image_spec)
      | .notFound => fetchLoop reg name rest
      | .error msg => .error (.registryError msg)

/-- `LocalImage.fetch_parent_image`: runs the pull loop over
`get_possible_parent_tags()` (default window). -/
def LocalImage.fetch_parent_image (img : LocalImage) (reg : Registry)
    (git : GitOracle) : Except HubployError (Option String) :=
  fetchLoop reg img.name (img.get_possible_parent_tags git)

/-- `LocalImage.needs_building(check_registry=False, commit_range=None)`:
raises `ValueError` when both or neither policy input is supplied
(`commit_range` by Python truthiness); otherwise the registry policy
returns `not exists_in_registry()` and the commit-range policy returns
`gitutils.path_touched(path, commit_range)`.  The source's implicit final
`return None` is unreachable: the exclusivity guards force `commit_range`
truthy on the last branch. -/
def LocalImage.needs_building (img : LocalImage) (reg : Registry)
    (git : GitOracle) (check_registry : Bool := false)
    (commit_range : Option String := none) : Except HubployError Bool :=
  if check_registry && optStrTruthy commit_range then
    .error (.usageError "Only one of check_registry or commit_range can be set")
  else if !(check_registry || optStrTruthy commit_range) then
    .error (.usageError "One of check_registry or commit_range must be set")
  else if check_registry then
    (img.exists_in_registry reg).map (fun b => !b)
  else
    .ok (git.pathTouched img.path (commit_range.getD ""))

/-- `LocalImage.build`: fetches a parent image; when a (truthy) parent spec
was found, sets `r2d.cache_from = [parent_image_spec]`; then invokes
`r2d.build()`.  Returns the post-state of the image together with the
arguments of the build-engine invocation. -/
def LocalImage.build (img : LocalImage) (reg : Registry) (git : GitOracle) :
    Except HubployError (LocalImage × BuildInvocation) :=
  (img.fetch_parent_image reg git).map (fun parent_image_spec =>
    let img' :=
      if optStrTruthy parent_image_spec then
        { img with r2d := { img.r2d with cache_from := [parent_image_spec.getD ""] } }
      else img
    (img',
     { subdir := img'.r2d.subdir
       output_image_spec := img'.r2d.output_image_spec
       cache_from := img'.r2d.cache_from }))

/-- `LocalImage.push`: calls `r2d.push_image()`, which publishes
`r2d.output_image_spec`; the model records which spec is pushed.  It reads
but never assigns any attribute of the image. -/
def LocalImage.push (img : LocalImage) : String :=
  img.r2d.output_image_spec

/-- History oracle whose revision id for offset `i` is `c<i>` and which
reports every range as touching every path. -/
def gitSeq : GitOracle :=
  { lastModifiedCommit := fun _ i => "c" ++ toString i
    pathTouched := fun _ _ => true }

/-- History oracle reporting no touching commit at any offset and no range
touch. -/
def gitEmptyTags : GitOracle :=
  { lastModifiedCommit := fun _ _ => ""
    pathTouched := fun _ _ => false }

/-- Registry whose manifest queries miss and whose pulls all miss. -/
def regAllNotFound : Registry :=
  { getRegistryData := fun _ => .imageNotFound
    pull := fun _ => .notFound }

/-- Registry where exactly the spec `good` pulls successfully and every
other pull misses; manifest queries miss. -/
def regPull (good : String) : Registry :=
  { getRegistryData := fun _ => .imageNotFound
    pull := fun s => if s = good then .success else .notFound }

/-- Registry where pulling exactly the spec `bad` raises a non-NotFound
error and every other pull misses; manifest queries miss. -/
def regErrAt (bad : String) : Registry :=
  { getRegistryData := fun _ => .imageNotFound
    pull := fun s => if s = bad then .error "boom" else .notFound }

/-- Registry whose manifest query resolves for every spec. -/
def regFound : Registry :=
  { getRegistryData := fun _ => .found "digest"
    pull := fun _ => .notFound }

end HubployModel

namespace HubployModel

/-- A candidate spec `name ++ ":" ++ t` is never the empty string. -/
theorem spec_ne_empty (name t : String) : name ++ ":" ++ t ≠ "" := by
  intro h
  have hl : (name ++ ":" ++ t).length = 0 := by rw [h]; rfl
  rw [String.length_append, String.length_append] at hl
  have hc : (":" : String).length = 1 := rfl
  omega

/-- The pull loop over tags at offsets `s, s+1, …, s+m-1`: if all offsets
before `s + j` miss and `s + j` pulls successfully, the loop returns the
candidate at `s + j`. -/
theorem fetchLoop_range_success (reg : Registry) (name : String) (f : Nat → String) :
    ∀ (m s j : Nat), j < m →
      (∀ i, i < j → reg.pull (name ++ ":" ++ f (s + i)) = .notFound) →
      reg.pull (name ++ ":" ++ f (s + j)) = .success →
      fetchLoop reg name ((List.range' s m).map f) = .ok (some (name ++ ":" ++ f (s + j))) := by
  intro m
  induction m with
  | zero => intro s j hj _ _; exact absurd hj (Nat.not_lt_zero j)
  | succ m ih =>
      intro s j hj hprev hsucc
      rw [List.range'_succ, List.map_cons]
      cases j with
      | zero =>
          simp only [Nat.add_zero] at hsucc
          simp [fetchLoop, hsucc]
      | succ j' =>
          have h0 : reg.pull (name ++ ":" ++ f s) = .notFound := by
            have := hprev 0 (Nat.succ_pos j')
            simpa using this
          have heq : s + (j' + 1) = (s + 1) + j' := by omega
          rw [heq] at hsucc ⊢
          have hrec := ih (s + 1) j' (Nat.lt_of_succ_lt_succ hj)
            (fun i hi => by
              have hh := hprev (i + 1) (Nat.succ_lt_succ hi)
              have heq2 : s + (i + 1) = (s + 1) + i := by omega
              rwa [heq2] at hh)
            hsucc
          simpa [fetchLoop, h0] using hrec

/-- The pull loop over tags at offsets `s, …, s+m-1`: if every offset
misses, the loop returns `none`. -/
theorem fetchLoop_range_notFound (reg : Registry) (name : String) (f : Nat → String) :
    ∀ (m s : Nat),
      (∀ i, i < m → reg.pull (name ++ ":" ++ f (s + i)) = .notFound) →
      fetchLoop reg name ((List.range' s m).map f) = .ok none := by
  intro m
  induction m with
  | zero => intro s _; rfl
  | succ m ih =>
      intro s h
      rw [List.range'_succ, List.map_cons]
      have h0 : reg.pull (name ++ ":" ++ f s) = .notFound := by
        have := h 0 (Nat.succ_pos m)
        simpa using this
      have hrec := ih (s + 1) (fun i hi => by
        have hh := h (i + 1) (Nat.succ_lt_succ hi)
        have heq2 : s + (i + 1) = (s + 1) + i := by omega
        rwa [heq2] at hh)
      simpa [fetchLoop, h0] using hrec

/-- The pull loop over tags at offsets `s, …, s+m-1`: if all offsets before
`s + j` miss and pulling the candidate at `s + j` raises a non-NotFound
error, the loop propagates that error. -/
theorem fetchLoop_range_error (reg : Registry) (name : String) (f : Nat → String) :
    ∀ (m s j : Nat) (msg : String), j < m →
      (∀ i, i < j → reg.pull (name ++ ":" ++ f (s + i)) = .notFound) →
      reg.pull (name ++ ":" ++ f (s + j)) = .error msg →
      fetchLoop reg name ((List.range' s m).map f) = .error (.registryError msg) := by
  intro m
  induction m with
  | zero => intro s j msg hj _ _; exact absurd hj (Nat.not_lt_zero j)
  | succ m ih =>
      intro s j msg hj hprev herr
      rw [List.range'_succ, List.map_cons]
      cases j with
      | zero =>
          simp only [Nat.add_zero] at herr
          simp [fetchLoop, herr]
      | succ j' =>
          have h0 : reg.pull (name ++ ":" ++ f s) = .notFound := by
            have := hprev 0 (Nat.succ_pos j')
            simpa using this
          have heq : s + (j' + 1) = (s + 1) + j' := by omega
          rw [heq] at herr
          have hrec := ih (s + 1) j' msg (Nat.lt_of_succ_lt_succ hj)
            (fun i hi => by
              have hh := hprev (i + 1) (Nat.succ_lt_succ hi)
              have heq2 : s + (i + 1) = (s + 1) + i := by omega
              rwa [heq2] at hh)
            herr
          simpa [fetchLoop, h0] using hrec

/-- Whatever spec the pull loop returns was built as `name ++ ":" ++ t` from
one of the candidate tags. -/
theorem fetchLoop_ok_some_mem (reg : Registry) (name : String) :
    ∀ (l : List String) (s0 : String), fetchLoop reg name l = .ok (some s0) →
      ∃ t ∈ l, s0 = name ++ ":" ++ t := by
  intro l
  induction l with
  | nil => intro s0 h; simp [fetchLoop] at h
  | cons t rest ih =>
      intro s0 h
      cases hp : reg.pull (name ++ ":" ++ t) with
      | success =>
          simp [fetchLoop, hp] at h
          exact ⟨t, List.mem_cons_self t rest, h.symm⟩
      | notFound =>
          simp only [fetchLoop, hp] at h
          obtain ⟨u, hu, he⟩ := ih s0 h
          exact ⟨u, List.mem_cons_of_mem t hu, he⟩
      | error msg => simp [fetchLoop, hp] at h

/-- Mapping over offsets `s, …, s+m-1` with a function that is empty on the
whole interval yields `m` copies of the empty string. -/
theorem range'_map_empty (f : Nat → String) :
    ∀ (m s : Nat), (∀ i, s ≤ i → i < s + m → f i = "") →
      (List.range' s m).map f = List.replicate m "" := by
  intro m
  induction m with
  | zero => intro s _; rfl
  | succ m ih =>
      intro s h
      rw [List.range'_succ, List.map_cons, List.replicate_succ]
      rw [h s (Nat.le_refl s) (by omega)]
      congr 1
      exact ih (s + 1) (fun i h1 h2 => h i (by omega) (by omega))

end HubployModel

namespace HubployModel

/-- With `check_registry` set and a falsy `commit_range`, `needs_building`
reduces to the negated registry-existence query. -/
theorem needs_building_registry_eq (git : GitOracle) (reg : Registry)
    (name path : String) (commit_range : Option String)
    (hcr : optStrTruthy commit_range = false) :
    (LocalImage.init git name path).needs_building reg git true commit_range =
      match reg.getRegistryData (LocalImage.init git name path).image_spec with
      | .found _ => .ok false
      | .imageNotFound => .ok true
      | .apiError e =>
          if e.startsWith "manifest unknown: " then .ok true
          else .error (.apiError e) := by
  unfold LocalImage.needs_building LocalImage.exists_in_registry
  rw [hcr]
  cases reg.getRegistryData (LocalImage.init git name path).image_spec with
  | found m => simp [Except.map]
  | imageNotFound => simp [Except.map]
  | apiError e =>
      by_cases hst : e.startsWith "manifest unknown: " = true <;>
        simp [hst, Except.map]

/-- C1: for every LocalImage, `needs_building` with `check_registry=true`
and no commit range returns `true` iff the registry reports the manifest
absent (an `ImageNotFound` outcome, or an `APIError` whose explanation
starts with `'manifest unknown: '`), returns `false` iff the manifest
resolves, and re-raises any other registry `APIError` unchanged. -/
theorem needs_building_registry_policy (git : GitOracle) (reg : Registry)
    (name path : String) :
    ((LocalImage.init git name path).needs_building reg git true none = .ok true ↔
      (reg.getRegistryData (LocalImage.init git name path).image_spec = .imageNotFound ∨
       ∃ e, reg.getRegistryData (LocalImage.init git name path).image_spec = .apiError e ∧
            e.startsWith "manifest unknown: " = true)) ∧
    ((LocalImage.init git name path).needs_building reg git true none = .ok false ↔
      (∃ m, reg.getRegistryData (LocalImage.init git name path).image_spec = .found m)) ∧
    (∀ e, reg.getRegistryData (LocalImage.init git name path).image_spec = .apiError e →
      e.startsWith "manifest unknown: " = false →
      (LocalImage.init git name path).needs_building reg git true none
        = .error (.apiError e)) := by
  rw [needs_building_registry_eq git reg name path none rfl]
  cases hr : reg.getRegistryData (LocalImage.init git name path).image_spec with
  | found m => simp
  | imageNotFound => simp
  | apiError e =>
      by_cases hst : e.startsWith "manifest unknown: " = true
      · simp [hst]
      · have hst' : e.startsWith "manifest unknown: " = false := by simpa using hst
        simp [hst']

/-- C2: for every LocalImage, `needs_building` raises a `ValueError` usage
error exactly when both `check_registry=true` and a truthy (non-empty)
`commit_range` are supplied, or when neither is; in every other case no
usage error is raised. -/
theorem needs_building_usage_error (git : GitOracle) (reg : Registry)
    (name path : String) (check_registry : Bool) (commit_range : Option String) :
    (∃ msg, (LocalImage.init git name path).needs_building reg git
        check_registry commit_range = .error (.usageError msg)) ↔
      ((check_registry = true ∧ optStrTruthy commit_range = true) ∨
       (check_registry = false ∧ optStrTruthy commit_range = false)) := by
  cases check_registry with
  | false =>
      cases hct : optStrTruthy commit_range with
      | false => simp [LocalImage.needs_building, hct]
      | true => simp [LocalImage.needs_building, hct]
  | true =>
      cases hct : optStrTruthy commit_range with
      | false =>
          rw [needs_building_registry_eq git reg name path commit_range hct]
          cases reg.getRegistryData (LocalImage.init git name path).image_spec with
          | found m => simp
          | imageNotFound => simp
          | apiError e =>
              by_cases hst : e.startsWith "manifest unknown: " = true <;> simp [hst]
      | true => simp [LocalImage.needs_building, hct]

/-- C4: for every LocalImage constructed from a path, the resolved tag is
the oracle's revision id at offset 0 for that path, or the sentinel
`latest` when the oracle reports no touching commit; construction itself
is a total function and never fails. -/
theorem tag_resolution (git : GitOracle) (name path : String) :
    (git.lastModifiedCommit path 0 = "" →
      (LocalImage.init git name path).tag = "latest") ∧
    (git.lastModifiedCommit path 0 ≠ "" →
      (LocalImage.init git name path).tag = git.lastModifiedCommit path 0) := by
  unfold LocalImage.init
  constructor <;> intro h <;> simp [h]

/-- C5: for every LocalImage, `needs_building` with a non-empty commit
range and `check_registry=false` returns exactly the history oracle's
range-touch answer for the image's path, is `true` iff some commit in the
range touched the path, and is independent of the registry. -/
theorem needs_building_commit_range (git : GitOracle) (reg reg' : Registry)
    (name path commit_range : String) (hcr : commit_range ≠ "") :
    ((LocalImage.init git name path).needs_building reg git false (some commit_range)
        = .ok (git.pathTouched path commit_range)) ∧
    ((LocalImage.init git name path).needs_building reg git false (some commit_range)
        = .ok true ↔ git.pathTouched path commit_range = true) ∧
    ((LocalImage.init git name path).needs_building reg git false (some commit_range)
        = (LocalImage.init git name path).needs_building reg' git false
            (some commit_range)) := by
  have hct : optStrTruthy (some commit_range) = true := by
    simp [optStrTruthy, hcr]
  refine ⟨?_, ?_, rfl⟩ <;> simp [LocalImage.needs_building, hct, LocalImage.init]

/-- C3 counterexample: with the oracle whose revision id at offset `i` is
`c<i>` and a registry where exactly the candidate spec of offset 16
(`img:c16`) pulls successfully, the probe returns `none`: offset 16 — equal
to the default `maxCandidates` — is outside the window produced by
`range(1, 16)`, refuting "offsets 1 through maxCandidates inclusive". -/
theorem fetch_parent_window_counterexample :
    gitSeq.lastModifiedCommit "p" 16 = "c16" ∧
    (regPull "img:c16").pull ("img" ++ ":" ++ gitSeq.lastModifiedCommit "p" 16)
      = .success ∧
    "c16" ∉ (LocalImage.init gitSeq "img" "p").get_possible_parent_tags gitSeq ∧
    (LocalImage.init gitSeq "img" "p").fetch_parent_image (regPull "img:c16") gitSeq
      = .ok none := by
  exact ⟨rfl, by decide, by decide, rfl⟩

/-- C3 (amended): the cache probe asks the history oracle for candidate
tags at offsets 1 through maxCandidates-1 inclusive (default window 16
gives offsets 1..15; offset 0, the current tag, is never asked), attempts
the candidates in increasing offset order, returns the first candidate
that pulls successfully — never a later one when an earlier one succeeds —
and never returns a candidate from beyond that window. -/
theorem fetch_parent_first_hit (git : GitOracle) (reg : Registry)
    (name path : String) :
    ((LocalImage.init git name path).get_possible_parent_tags git =
      (List.range' 1 15).map (fun i => git.lastModifiedCommit path i)) ∧
    (∀ j, 1 ≤ j → j < 16 →
      (∀ i, 1 ≤ i → i < j →
        reg.pull (name ++ ":" ++ git.lastModifiedCommit path i) = .notFound) →
      reg.pull (name ++ ":" ++ git.lastModifiedCommit path j) = .success →
      (LocalImage.init git name path).fetch_parent_image reg git =
        .ok (some (name ++ ":" ++ git.lastModifiedCommit path j))) ∧
    (∀ s, (LocalImage.init git name path).fetch_parent_image reg git
        = .ok (some s) →
      ∃ i, 1 ≤ i ∧ i < 16 ∧ s = name ++ ":" ++ git.lastModifiedCommit path i) := by
  refine ⟨rfl, ?_, ?_⟩
  · intro j h1 h16 hprev hsucc
    obtain ⟨j', rfl⟩ : ∃ j', j = 1 + j' := ⟨j - 1, by omega⟩
    exact fetchLoop_range_success reg name (fun i => git.lastModifiedCommit path i)
      15 1 j' (by omega)
      (fun i hi => hprev (1 + i) (by omega) (by omega))
      hsucc
  · intro s hs
    obtain ⟨t, ht, rfl⟩ := fetchLoop_ok_some_mem reg name _ s hs
    obtain ⟨i, hi, rfl⟩ := List.mem_map.mp ht
    have hr := List.mem_range'_1.mp hi
    exact ⟨i, hr.1, by omega, rfl⟩

/-- C6: during the cache probe a not-found pull is absorbed and the probe
advances; when no candidate in the window pulls, the probe returns `none`
without error; a pull failing with any other error aborts the probe by
propagating that error. -/
theorem fetch_parent_error_handling (git : GitOracle) (reg : Registry)
    (name path : String) :
    ((∀ i, 1 ≤ i → i < 16 →
        reg.pull (name ++ ":" ++ git.lastModifiedCommit path i) = .notFound) →
      (LocalImage.init git name path).fetch_parent_image reg git = .ok none) ∧
    (∀ j msg, 1 ≤ j → j < 16 →
      (∀ i, 1 ≤ i → i < j →
        reg.pull (name ++ ":" ++ git.lastModifiedCommit path i) = .notFound) →
      reg.pull (name ++ ":" ++ git.lastModifiedCommit path j) = .error msg →
      (LocalImage.init git name path).fetch_parent_image reg git
        = .error (.registryError msg)) := by
  constructor
  · intro hall
    exact fetchLoop_range_notFound reg name (fun i => git.lastModifiedCommit path i)
      15 1 (fun i hi => hall (1 + i) (by omega) (by omega))
  · intro j msg h1 h16 hprev herr
    obtain ⟨j', rfl⟩ : ∃ j', j = 1 + j' := ⟨j - 1, by omega⟩
    exact fetchLoop_range_error reg name (fun i => git.lastModifiedCommit path i)
      15 1 j' msg (by omega)
      (fun i hi => hprev (1 + i) (by omega) (by omega))
      herr

/-- C10: when the oracle reports no commit (empty result) for the probed
offsets, the candidate generator still yields the empty result for each
offset, and the probe neither skips nor stops on such a candidate: it
builds the spec `name ++ ":"` from the empty tag and pulls it like any
other candidate — the pull's outcome decides the probe. -/
theorem empty_tag_candidates (git : GitOracle) (reg : Registry)
    (name path : String)
    (hempty : ∀ i, 1 ≤ i → i < 16 → git.lastModifiedCommit path i = "") :
    ((LocalImage.init git name path).get_possible_parent_tags git
        = List.replicate 15 "") ∧
    (reg.pull (name ++ ":") = .success →
      (LocalImage.init git name path).fetch_parent_image reg git
        = .ok (some (name ++ ":"))) ∧
    (reg.pull (name ++ ":") = .notFound →
      (LocalImage.init git name path).fetch_parent_image reg git = .ok none) := by
  have hcolon : name ++ ":" ++ "" = name ++ ":" := by simp
  refine ⟨?_, ?_, ?_⟩
  · exact range'_map_empty (fun i => git.lastModifiedCommit path i) 15 1
      (fun i hl hu => hempty i hl (by omega))
  · intro hsucc
    have h := fetchLoop_range_success reg name
      (fun i => git.lastModifiedCommit path i) 15 1 0 (by omega)
      (fun i hi => absurd hi (Nat.not_lt_zero i))
      (by simp only [hempty (1 + 0) (by omega) (by omega), hcolon]; exact hsucc)
    simp only [hempty (1 + 0) (by omega) (by omega), hcolon] at h
    exact h
  · intro hnf
    exact fetchLoop_range_notFound reg name
      (fun i => git.lastModifiedCommit path i) 15 1
      (fun i hi => by
        simp only [hempty (1 + i) (by omega) (by omega), hcolon]; exact hnf)

/-- C7: `build` first runs the cache probe; when the probe returns a
candidate spec, that spec (and only then) becomes the build engine's
cache-source hint; in all cases the build engine is invoked with the
image's path as build context and the image's `image_spec` as output tag;
a probe error aborts the build. -/
theorem build_cache_hint (git : GitOracle) (reg : Registry)
    (name path : String) :
    (∀ s, (LocalImage.init git name path).fetch_parent_image reg git
        = .ok (some s) →
      (LocalImage.init git name path).build reg git =
        .ok ({ LocalImage.init git name path with
                r2d := { (LocalImage.init git name path).r2d with
                          cache_from := [s] } },
             { subdir := path
               output_image_spec := (LocalImage.init git name path).image_spec
               cache_from := [s] })) ∧
    ((LocalImage.init git name path).fetch_parent_image reg git = .ok none →
      (LocalImage.init git name path).build reg git =
        .ok (LocalImage.init git name path,
             { subdir := path
               output_image_spec := (LocalImage.init git name path).image_spec
               cache_from := [] })) ∧
    (∀ e, (LocalImage.init git name path).fetch_parent_image reg git = .error e →
      (LocalImage.init git name path).build reg git = .error e) := by
  refine ⟨?_, ?_, ?_⟩
  · intro s hs
    have hne : s ≠ "" := by
      obtain ⟨t, _, rfl⟩ := fetchLoop_ok_some_mem reg name _ s hs
      exact spec_ne_empty name t
    unfold LocalImage.build
    rw [hs]
    simp [Except.map, optStrTruthy, hne, LocalImage.init]
  · intro hn
    unfold LocalImage.build
    rw [hn]
    simp [Except.map, optStrTruthy, LocalImage.init]
  · intro e he
    unfold LocalImage.build
    rw [he]
    rfl

/-- Whenever `build` succeeds, the returned image keeps the original
`name`, `tag`, `path` and `image_spec` (only `r2d.cache_from` may have
been set). -/
theorem build_preserves_fields (img : LocalImage) (reg : Registry)
    (git : GitOracle) :
    ∀ img' inv, img.build reg git = .ok (img', inv) →
      img'.name = img.name ∧ img'.tag = img.tag ∧ img'.path = img.path ∧
      img'.image_spec = img.image_spec := by
  intro img' inv h
  unfold LocalImage.build at h
  cases hf : img.fetch_parent_image reg git with
  | error e => rw [hf] at h; simp [Except.map] at h
  | ok parent =>
      rw [hf] at h
      simp only [Except.map, Except.ok.injEq, Prod.mk.injEq] at h
      obtain ⟨h1, _⟩ := h
      subst h1
      split <;> simp

/-- C8: the fields `name`, `tag`, `path` and `image_spec` are fixed at
construction (with `image_spec = name ++ ":" ++ tag`), construction also
fixes the build engine's output tag to `image_spec`, and a successful
`build` — the only operation that returns an updated image — leaves all
four fields, and the `image_spec = name:tag` equation, intact.  The
remaining operations (`exists_in_registry`, `get_possible_parent_tags`,
`fetch_parent_image`, `needs_building`, `push`) are modelled as pure
functions of the image, mirroring that the source never assigns these
attributes outside `__init__`. -/
theorem image_fields_immutable (git : GitOracle) (reg : Registry)
    (name path hsp : String) :
    ((LocalImage.init git name path hsp).image_spec
        = (LocalImage.init git name path hsp).name ++ ":"
            ++ (LocalImage.init git name path hsp).tag) ∧
    ((LocalImage.init git name path hsp).name = name) ∧
    ((LocalImage.init git name path hsp).path = path) ∧
    ((LocalImage.init git name path hsp).r2d.output_image_spec
        = (LocalImage.init git name path hsp).image_spec) ∧
    ((LocalImage.init git name path hsp).push
        = (LocalImage.init git name path hsp).image_spec) ∧
    (∀ img' inv,
      (LocalImage.init git name path hsp).build reg git = .ok (img', inv) →
      img'.name = name ∧ img'.tag = (LocalImage.init git name path hsp).tag ∧
      img'.path = path ∧
      img'.image_spec = (LocalImage.init git name path hsp).image_spec ∧
      img'.image_spec = img'.name ++ ":" ++ img'.tag) := by
  refine ⟨rfl, rfl, rfl, rfl, rfl, ?_⟩
  intro img' inv h
  have hp := build_preserves_fields (LocalImage.init git name path hsp) reg git
    img' inv h
  refine ⟨hp.1, hp.2.1, hp.2.2.1, hp.2.2.2, ?_⟩
  rw [hp.2.2.2, hp.1, hp.2.1]
  rfl

/-- C9: the docker client is memoized in class-level state: a first access
(no stored client) constructs exactly one client and stores it; any access
with a stored client returns that same client, from any instance, without
constructing a new one (the construction counter does not change); hence
two consecutive accesses, even from different instances, agree. -/
theorem docker_client_memoized :
    (∀ (img : LocalImage) (s : DockerClientState), s._docker = none →
      ((img.docker s).2)._docker = some (img.docker s).1 ∧
      ((img.docker s).2).constructions = s.constructions + 1) ∧
    (∀ (img img' : LocalImage) (s : DockerClientState) (c : Nat),
      s._docker = some c →
      img.docker s = (c, s) ∧ img.docker s = img'.docker s) ∧
    (∀ (img img' : LocalImage) (s : DockerClientState), s._docker = none →
      img'.docker ((img.docker s).2)
        = ((img.docker s).1, (img.docker s).2)) := by
  refine ⟨?_, ?_, ?_⟩
  · intro img s h
    simp [LocalImage.docker, h]
  · intro img img' s c h
    simp [LocalImage.docker, h]
  · intro img img' s h
    simp [LocalImage.docker, h]

/-- Witness for C1: against a registry reporting `ImageNotFound`, the
registry policy demands a build. -/
theorem needs_building_registry_policy_check :
    (LocalImage.init gitSeq "n" "p").needs_building regAllNotFound gitSeq true none
      = .ok true :=
  (needs_building_registry_policy gitSeq regAllNotFound "n" "p").1.mpr (Or.inl rfl)

/-- Witness for C2: supplying both policy inputs raises a usage error. -/
theorem needs_building_usage_error_check :
    ∃ msg, (LocalImage.init gitSeq "n" "p").needs_building regAllNotFound gitSeq
        true (some "r1..r2") = .error (.usageError msg) :=
  (needs_building_usage_error gitSeq regAllNotFound "n" "p" true
    (some "r1..r2")).mpr (Or.inl ⟨rfl, by decide⟩)

/-- Witness for C3 (amended): when the candidate at offset 1 pulls, the
probe returns it. -/
theorem fetch_parent_first_hit_check :
    (LocalImage.init gitSeq "n" "p").fetch_parent_image (regPull "n:c1") gitSeq
      = .ok (some "n:c1") :=
  (fetch_parent_first_hit gitSeq (regPull "n:c1") "n" "p").2.1 1
    (by omega) (by omega)
    (fun i h1 h2 => absurd (Nat.lt_of_le_of_lt h1 h2) (Nat.lt_irrefl 1))
    (by decide)

/-- Witness for C4: a path with history gets its offset-0 revision id as
tag. -/
theorem tag_resolution_check :
    (LocalImage.init gitSeq "n" "p").tag = "c0" :=
  (tag_resolution gitSeq "n" "p").2 (by decide)

/-- Witness for C5: a commit range touching the path demands a build. -/
theorem needs_building_commit_range_check :
    (LocalImage.init gitSeq "n" "p").needs_building regAllNotFound gitSeq
        false (some "a..b") = .ok true :=
  (needs_building_commit_range gitSeq regAllNotFound regFound "n" "p" "a..b"
    (by decide)).1

/-- Witness for C6: when every candidate pull misses, the probe returns
`none` without error. -/
theorem fetch_parent_error_handling_check :
    (LocalImage.init gitSeq "n" "p").fetch_parent_image regAllNotFound gitSeq
      = .ok none :=
  (fetch_parent_error_handling gitSeq regAllNotFound "n" "p").1
    (fun _ _ _ => rfl)

/-- Witness for C7: with no pullable parent, the build engine is invoked
with the image's path and image spec and no cache hint. -/
theorem build_cache_hint_check :
    (LocalImage.init gitSeq "n" "p").build regAllNotFound gitSeq
      = .ok (LocalImage.init gitSeq "n" "p",
             { subdir := "p", output_image_spec := "n:c0", cache_from := [] }) :=
  (build_cache_hint gitSeq regAllNotFound "n" "p").2.1 rfl

/-- Witness for C8: a successful build returns an image with the original
name. -/
theorem image_fields_immutable_check :
    (LocalImage.init gitSeq "n" "p" "x").name = "n" :=
  ((image_fields_immutable gitSeq regAllNotFound "n" "p" "x").2.2.2.2.2
    (LocalImage.init gitSeq "n" "p" "x")
    { subdir := "p", output_image_spec := "n:c0", cache_from := [] } rfl).1

/-- Witness for C9: after a first access constructs the client, a second
access from another instance returns the stored client unchanged. -/
theorem docker_client_memoized_check :
    (LocalImage.init gitEmptyTags "m" "q").docker
        (((LocalImage.init gitSeq "n" "p").docker ⟨none, 0⟩).2)
      = (((LocalImage.init gitSeq "n" "p").docker ⟨none, 0⟩).1,
         ((LocalImage.init gitSeq "n" "p").docker ⟨none, 0⟩).2) :=
  docker_client_memoized.2.2 (LocalImage.init gitSeq "n" "p")
    (LocalImage.init gitEmptyTags "m" "q") ⟨none, 0⟩ rfl

/-- Witness for C10: with an empty-history path, the probe pulls the
empty-tag candidate `n:` and returns it when the pull succeeds. -/
theorem empty_tag_candidates_check :
    (LocalImage.init gitEmptyTags "n" "p").fetch_parent_image (regPull "n:")
        gitEmptyTags = .ok (some ("n" ++ ":")) :=
  (empty_tag_candidates gitEmptyTags (regPull "n:") "n" "p"
    (fun _ _ _ => rfl)).2.1 (by decide)

end HubployModel
